import Mathlib

/-!
Verification development for the ReserveKit booking engine described by the
repository documentation (services, recurring time slots, bookings, capacity
enforcement, duplicate prevention, webhooks, rate limiting).  The repository
itself contains only documentation and an OpenAPI descriptor; the backend it
documents is reconstructed here as a shallow embedding, following the design
specification (components 4.1 - 4.6, data model in section 3), with response
shapes and error codes taken from the documentation pages where they are
documented.
-/

/-- Modelled from the spec: booking lifecycle states of the Booking State
Machine (section 4.5): pending (initial), confirmed, cancelled. -/
inductive Status where
  | pending
  | confirmed
  | cancelled
deriving DecidableEq, Repr

/-- A calendar date (year, month, day), the result of parsing a
"YYYY-MM-DD" string. -/
structure Date where
  year : Nat
  month : Nat
  day : Nat
deriving DecidableEq, Repr

/-- Modelled from the spec: a TimeSlot, the recurring weekly availability rule
scoped to a Service (data model, section 3).  Times of day are minutes since
midnight of the placeholder day. -/
structure TimeSlot where
  id : Nat
  serviceId : Nat
  dayOfWeek : Nat
  startTime : Nat
  endTime : Nat
  maxBookings : Nat
deriving DecidableEq, Repr

/-- Modelled from the spec: the per-slot element of the batch upsert request
body (PATCH /v1/time-slots): an optional id (update in place when present,
insert when absent) plus the slot fields. -/
structure SlotInput where
  id : Option Nat
  dayOfWeek : Nat
  startTime : Nat
  endTime : Nat
  maxBookings : Nat
deriving DecidableEq, Repr

/-- Modelled from the spec: a Booking row (data model, section 3).  The
customer reference is reduced to an opaque customer key, the dedup identity
the Duplicate Guard (section 4.3) operates on. -/
structure Booking where
  id : Nat
  serviceId : Nat
  timeSlotId : Nat
  date : Date
  status : Status
  cancelReason : Option String
  message : String
  customerKey : String
deriving DecidableEq, Repr

/-- Modelled from the spec: a domain event emitted for external webhook
delivery.  The event type string follows the webhooks documentation
(Event Types table: bookings.create, bookings.update, bookings.delete). -/
structure Event where
  eventType : String
  bookingId : Nat
deriving DecidableEq, Repr

/-- Modelled from the spec: the error taxonomy of section 7, restricted to the
errors produced by the embedded operations. -/
inductive BErr where
  | formatError
  | notFound (code : String)
  | validation (code : String)
  | duplicateBooking
  | capacityExceeded
  | invalidStatusTransition
deriving DecidableEq, Repr

/-- Modelled from the spec: the error code string surfaced to the caller in
the error envelope for each error (section 7 taxonomy; business-logic codes
per the error-handling documentation). -/
def errCode : BErr → String
  | .formatError => "invalid_field_format"
  | .notFound c => c
  | .validation c => c
  | .duplicateBooking => "duplicate_booking"
  | .capacityExceeded => "time_slot_full"
  | .invalidStatusTransition => "invalid_status_transition"

/-- A JSON-like value, used to state the documented response body shapes. -/
inductive JVal where
  | str (s : String)
  | num (n : Int)
  | obj (fields : List (String × JVal))
  | arr (elems : List JVal)

/-- Modelled from the spec: the success response envelope wraps the payload
in a data field. -/
def okEnvelope (v : JVal) : JVal := .obj [("data", v)]

/-- The occurrence key: (time_slot_id, date) — the unit against which
capacity and duplicates are checked (data model, section 3). -/
abbrev OccKey := Nat × Date

/-- Modelled from the spec: the state of the booking engine — the TimeSlot
catalog, the Booking rows, the Capacity Ledger counters keyed by occurrence,
and fresh-id counters. -/
structure State where
  slots : List TimeSlot
  bookings : List Booking
  counters : List (OccKey × Int)
  nextBookingId : Nat
  nextSlotId : Nat
deriving DecidableEq, Repr

/-- Whether a year is a leap year in the Gregorian calendar. -/
def isLeap (y : Nat) : Bool :=
  y % 4 = 0 && (y % 100 ≠ 0 || y % 400 = 0)

/-- Number of days in a month of a given year. -/
def daysInMonth (y m : Nat) : Nat :=
  if m = 2 then (if isLeap y then 29 else 28)
  else if m = 4 || m = 6 || m = 9 || m = 11 then 30
  else 31

/-- Numeric value of a decimal digit character. -/
def digitVal (c : Char) : Nat := c.toNat - 48

/-- Modelled from the spec: Clock/TimeZone Resolver parseDate (section 4.2) —
accepts exactly "YYYY-MM-DD" strings that denote a valid calendar date,
rejecting lexically well-shaped but calendar-invalid strings. -/
def parseDate (s : String) : Except BErr Date :=
  match s.toList with
  | [y1, y2, y3, y4, c1, m1, m2, c2, d1, d2] =>
    if c1 = '-' && c2 = '-' && [y1, y2, y3, y4, m1, m2, d1, d2].all Char.isDigit then
      let y := 1000 * digitVal y1 + 100 * digitVal y2 + 10 * digitVal y3 + digitVal y4
      let m := 10 * digitVal m1 + digitVal m2
      let d := 10 * digitVal d1 + digitVal d2
      if 1 ≤ m && m ≤ 12 && 1 ≤ d && d ≤ daysInMonth y m then
        .ok ⟨y, m, d⟩
      else .error .formatError
    else .error .formatError
  | _ => .error .formatError

/-- Modelled from the spec: one concrete weekday resolver (Zeller's
congruence), with the convention 0 = Sunday used by the Time Slot Object
documentation.  The documentation is internally inconsistent about whether 0
is Sunday or Monday, so the operations below take the resolver as a
parameter; this is the Sunday-based instantiation. -/
def weekdaySun0 (d : Date) : Nat :=
  let m := if d.month ≤ 2 then d.month + 12 else d.month
  let y := if d.month ≤ 2 then d.year - 1 else d.year
  let k := y % 100
  let j := y / 100
  let h := (d.day + (13 * (m + 1)) / 5 + k + k / 4 + j / 4 + 5 * j) % 7
  (h + 6) % 7

/-- Current value of a Capacity Ledger counter (0 when the occurrence has no
entry yet). -/
def getCount (l : List (OccKey × Int)) (k : OccKey) : Int :=
  match l.find? (fun e => decide (e.1 = k)) with
  | some e => e.2
  | none => 0

/-- Store a counter value for an occurrence, replacing any previous entry. -/
def setCount (l : List (OccKey × Int)) (k : OccKey) (v : Int) : List (OccKey × Int) :=
  (k, v) :: l.filter (fun e => !decide (e.1 = k))

/-- Modelled from the spec: Capacity Ledger reserveSeat (section 4.4) —
increments the counter keyed by (timeSlotId, date) only if the current count
is below maxBookings, failing with CapacityExceededError otherwise. -/
def reserveSeat (l : List (OccKey × Int)) (tsId : Nat) (d : Date) (maxB : Nat) :
    Except BErr (List (OccKey × Int)) :=
  let c := getCount l (tsId, d)
  if c < (maxB : Int) then .ok (setCount l (tsId, d) (c + 1))
  else .error .capacityExceeded

/-- Modelled from the spec: Capacity Ledger releaseSeat (section 4.4) —
decrements the counter with a defensive floor at 0, so it is safe to call
even when the counter is already zero. -/
def releaseSeat (l : List (OccKey × Int)) (tsId : Nat) (d : Date) :
    List (OccKey × Int) :=
  setCount l (tsId, d) (max 0 (getCount l (tsId, d) - 1))

/-- Is this booking a live (non-cancelled) booking of the given occurrence? -/
def occPred (tsId : Nat) (d : Date) (b : Booking) : Bool :=
  decide (b.timeSlotId = tsId) && decide (b.date = d) && !decide (b.status = Status.cancelled)

/-- Is this booking a live (non-cancelled) booking of the given customer on
the given occurrence? -/
def dupPred (ck : String) (tsId : Nat) (d : Date) (b : Booking) : Bool :=
  decide (b.customerKey = ck) && occPred tsId d b

/-- Number of non-cancelled bookings of an occurrence. -/
def occCount (bs : List Booking) (tsId : Nat) (d : Date) : Nat :=
  bs.countP (occPred tsId d)

/-- Modelled from the spec: Duplicate Guard checkDuplicate (section 4.3) —
true when a non-cancelled booking already exists for the exact
(customerKey, timeSlotId, date) triple. -/
def hasDuplicate (bs : List Booking) (ck : String) (tsId : Nat) (d : Date) : Bool :=
  bs.any (dupPred ck tsId d)

/-- Replace the first booking whose id matches, leaving the rest unchanged
(the row located by find? is the row updated). -/
def updateList (bid : Nat) (nb : Booking) : List Booking → List Booking
  | [] => []
  | x :: xs => if x.id = bid then nb :: xs else x :: updateList bid nb xs

/-- Remove the first booking whose id matches. -/
def removeList (bid : Nat) : List Booking → List Booking
  | [] => []
  | x :: xs => if x.id = bid then xs else x :: removeList bid xs

/-- Modelled from the spec: Catalog resolution of a time slot by id
(section 4.1). -/
def resolveSlot (s : State) (tsId : Nat) : Option TimeSlot :=
  s.slots.find? (fun t => decide (t.id = tsId))

/-- The Booking row committed by a successful admission: pending state, fresh
id, the parsed occurrence and customer key. -/
def mkBooking (s : State) (serviceId tsId : Nat) (d : Date) (ck msg : String) : Booking :=
  { id := s.nextBookingId, serviceId := serviceId, timeSlotId := tsId, date := d,
    status := .pending, cancelReason := none, message := msg, customerKey := ck }

/-- Modelled from the spec: the Booking Admission Pipeline createBooking
(section 4.6): parse the date, resolve the slot and check service ownership
and weekday match (NotFoundError time_slot_not_found otherwise), run the
Duplicate Guard, reserve a seat in the Capacity Ledger, commit the Booking
row in pending state, and emit one domain event for webhook delivery (event
type per the webhooks documentation).  The weekday resolver is a parameter
because the documentation is inconsistent about the weekday convention. -/
def createBooking (wk : Date → Nat) (s : State) (serviceId tsId : Nat)
    (dateStr ck msg : String) : Except BErr (State × List Event) :=
  match parseDate dateStr with
  | .error e => .error e
  | .ok date =>
    match resolveSlot s tsId with
    | none => .error (.notFound "time_slot_not_found")
    | some t =>
      if t.serviceId = serviceId ∧ t.dayOfWeek = wk date then
        if hasDuplicate s.bookings ck tsId date then .error .duplicateBooking
        else
          match reserveSeat s.counters tsId date t.maxBookings with
          | .error e => .error e
          | .ok led =>
            .ok ({ s with bookings := mkBooking s serviceId tsId date ck msg :: s.bookings,
                          counters := led,
                          nextBookingId := s.nextBookingId + 1 },
                 [{ eventType := "bookings.create", bookingId := s.nextBookingId }])
      else .error (.notFound "time_slot_not_found")

/-- Modelled from the spec: the Booking State Machine status transition
(section 4.5) applied through PATCH /v1/bookings: a cancelled booking admits
no further transition (InvalidStatusTransitionError); a transition into
cancelled requires a cancel_reason (ValidationError otherwise) and releases
the occurrence's seat; transitions between the live states have no capacity
effect. -/
def updateBookingStatus (s : State) (bid : Nat) (newStatus : Status)
    (cancelReason : Option String) : Except BErr State :=
  match s.bookings.find? (fun b => decide (b.id = bid)) with
  | none => .error (.notFound "booking_not_found")
  | some b =>
    if b.status = Status.cancelled then .error .invalidStatusTransition
    else
      match newStatus with
      | .cancelled =>
        match cancelReason with
        | none => .error (.validation "missing_required_field")
        | some r =>
          .ok { s with
                bookings := updateList bid { b with status := .cancelled,
                                                    cancelReason := some r } s.bookings,
                counters := releaseSeat s.counters b.timeSlotId b.date }
      | st =>
        .ok { s with bookings := updateList bid { b with status := st } s.bookings }

/-- Modelled from the spec: hard delete of a booking (section 4.5): permitted
from any status; releases the seat when the prior status was not cancelled;
the documented response envelope carries the literal string "ok". -/
def deleteBooking (s : State) (bid : Nat) : Except BErr (State × JVal) :=
  match s.bookings.find? (fun b => decide (b.id = bid)) with
  | none => .error (.notFound "booking_not_found")
  | some b =>
    .ok ({ s with bookings := removeList bid s.bookings,
                  counters := if b.status = Status.cancelled then s.counters
                              else releaseSeat s.counters b.timeSlotId b.date },
         okEnvelope (.str "ok"))

/-- Modelled from the spec: per-slot validation of the batch upsert
(TimeSlot invariants in section 3): start_time < end_time, max_bookings at
least 1, day_of_week in 0..6. -/
def validateSlot (x : SlotInput) : Bool :=
  decide (x.startTime < x.endTime) && decide (1 ≤ x.maxBookings) && decide (x.dayOfWeek ≤ 6)

/-- Apply one batch-upsert element to a working copy of the slot list: update
in place when an id is supplied, insert a fresh slot otherwise. -/
def upsertOne (serviceId : Nat) (acc : List TimeSlot × Nat) (x : SlotInput) :
    Except BErr (List TimeSlot × Nat) :=
  if validateSlot x then
    match x.id with
    | some i =>
      if (acc.1.find? (fun t => decide (t.id = i))).isSome then
        .ok (acc.1.map (fun t => if t.id = i then
                { t with dayOfWeek := x.dayOfWeek, startTime := x.startTime,
                         endTime := x.endTime, maxBookings := x.maxBookings } else t),
             acc.2)
      else .error (.notFound "time_slot_not_found")
    | none =>
      .ok (acc.1 ++ [{ id := acc.2, serviceId := serviceId, dayOfWeek := x.dayOfWeek,
                       startTime := x.startTime, endTime := x.endTime,
                       maxBookings := x.maxBookings }],
           acc.2 + 1)
  else .error (.validation "invalid_request")

/-- Sequentially apply the batch elements to the working copy, stopping at
the first failure. -/
def batchUpsertGo (serviceId : Nat) (acc : List TimeSlot × Nat) :
    List SlotInput → Except BErr (List TimeSlot × Nat)
  | [] => .ok acc
  | x :: xs =>
    match upsertOne serviceId acc x with
    | .ok acc2 => batchUpsertGo serviceId acc2 xs
    | .error e => .error e

/-- Modelled from the spec: Catalog batchUpsertTimeSlots (section 4.1) —
applies the whole batch to a working copy and commits only when every
element succeeded; any single failure rejects the batch. -/
def batchUpsertTimeSlots (s : State) (serviceId : Nat) (xs : List SlotInput) :
    Except BErr State :=
  match batchUpsertGo serviceId (s.slots, s.nextSlotId) xs with
  | .ok acc => .ok { s with slots := acc.1, nextSlotId := acc.2 }
  | .error e => .error e

/-- Modelled from the spec: DELETE /v1/time-slots/(id) — removes the slot and
answers with the documented "ok" envelope. -/
def deleteTimeSlot (s : State) (tsId : Nat) : Except BErr (State × JVal) :=
  match s.slots.find? (fun t => decide (t.id = tsId)) with
  | none => .error (.notFound "time_slot_not_found")
  | some _ =>
    .ok ({ s with slots := s.slots.filter (fun t => !decide (t.id = tsId)) },
         okEnvelope (.str "ok"))

/-- Modelled from the spec: DELETE /v1/time-slots?service_id=&day_of_week= —
deletes all matching slots; idempotent (succeeds with no matches); answers
with the documented "ok" envelope. -/
def deleteTimeSlotsByDay (s : State) (serviceId dow : Nat) : State × JVal :=
  let keep := fun (t : TimeSlot) =>
    !(decide (t.serviceId = serviceId) && decide (t.dayOfWeek = dow))
  ({ s with slots := s.slots.filter keep }, okEnvelope (.str "ok"))

/-- HTTP-level handler for POST /v1/bookings: commits the new state on
success, keeps the old state and reports the error on failure. -/
def postBooking (wk : Date → Nat) (s : State) (serviceId tsId : Nat)
    (dateStr ck msg : String) : State × List Event × Option BErr :=
  match createBooking wk s serviceId tsId dateStr ck msg with
  | .ok (s2, ev) => (s2, ev, none)
  | .error e => (s, [], some e)

/-- HTTP-level handler for the status portion of PATCH /v1/bookings:
commits on success, keeps the old state on failure. -/
def patchBooking (s : State) (bid : Nat) (st : Status) (reason : Option String) :
    State × Option BErr :=
  match updateBookingStatus s bid st reason with
  | .ok s2 => (s2, none)
  | .error e => (s, some e)

/-- HTTP-level handler for DELETE /v1/bookings. -/
def deleteBookingH (s : State) (bid : Nat) : State × Option JVal × Option BErr :=
  match deleteBooking s bid with
  | .ok (s2, v) => (s2, some v, none)
  | .error e => (s, none, some e)

/-- HTTP-level handler for PATCH /v1/time-slots (batch upsert): commits on
success, keeps the old state on failure. -/
def patchTimeSlots (s : State) (serviceId : Nat) (xs : List SlotInput) :
    State × Option BErr :=
  match batchUpsertTimeSlots s serviceId xs with
  | .ok s2 => (s2, none)
  | .error e => (s, some e)

/-- HTTP-level handler for DELETE /v1/time-slots/(id). -/
def deleteTimeSlotH (s : State) (tsId : Nat) : State × Option JVal × Option BErr :=
  match deleteTimeSlot s tsId with
  | .ok (s2, v) => (s2, some v, none)
  | .error e => (s, none, some e)

/-- The Capacity Ledger consistency invariant (section 4.4: the counter is
derived and must equal the count of non-cancelled bookings per
occurrence). -/
def LedgerInv (s : State) : Prop :=
  ∀ tsId d, getCount s.counters (tsId, d) = (occCount s.bookings tsId d : Int)

/-- The capacity invariant (section 8): per occurrence, the number of
non-cancelled bookings never exceeds the resolved slot's max_bookings. -/
def CapInv (s : State) : Prop :=
  ∀ tsId d t, resolveSlot s tsId = some t → occCount s.bookings tsId d ≤ t.maxBookings

/-- All Capacity Ledger counters are non-negative. -/
def NonNeg (s : State) : Prop :=
  ∀ k, 0 ≤ getCount s.counters k

/-- Modelled from the spec: the documented 429 rate-limit rejection body —
an error object with the rate_limit_exceeded code, a message, and a numeric
retry_after field (error-handling documentation, Rate Limiting Errors). -/
def rateLimitBody (retryAfter : Int) (msg : String) : JVal :=
  .obj [("error", .obj [("code", .str "rate_limit_exceeded"),
                        ("message", .str msg),
                        ("retry_after", .num retryAfter)])]

/-- Modelled from the spec: the documented code for exceeding the monthly
API usage limit (error-handling documentation, Rate Limiting Errors). -/
def apiLimitCode : String := "api_limit_exceeded"

/-- Modelled from the spec: the documented code for exceeding the request
rate limit. -/
def rateLimitCode : String := "rate_limit_exceeded"

/-- An HTTP response: status, headers, JSON body. -/
structure HttpResponse where
  status : Nat
  headers : List (String × String)
  body : JVal

/-- Modelled from the spec: the documented 429 response — status 429, a
Retry-After header, and the rate-limit error body. -/
def rateLimitResponse (retryAfter : Nat) (msg : String) : HttpResponse :=
  { status := 429,
    headers := [("Retry-After", toString retryAfter)],
    body := rateLimitBody retryAfter msg }

/-- Look a field up in a JSON object (none on non-objects). -/
def getField (j : JVal) (k : String) : Option JVal :=
  match j with
  | .obj fields => fields.lookup k
  | _ => none

-- Decidable equality of results, used to evaluate the embedding on closed inputs.
deriving instance DecidableEq for Except

/-! ### Concrete fixtures for closed instances -/

/-- A concrete Monday date, 2023-07-10. -/
def date0 : Date := ⟨2023, 7, 10⟩

/-- A concrete Tuesday date, 2023-07-11. -/
def date1 : Date := ⟨2023, 7, 11⟩

/-- A Monday (day_of_week 1 under the 0 = Sunday convention) slot with
capacity one. -/
def slot1 : TimeSlot :=
  { id := 1, serviceId := 1, dayOfWeek := 1, startTime := 540, endTime := 1020,
    maxBookings := 1 }

/-- A live pending booking of customer a on slot1 at date0. -/
def book1 : Booking :=
  { id := 10, serviceId := 1, timeSlotId := 1, date := date0, status := .pending,
    cancelReason := none, message := "", customerKey := "a" }

/-- A cancelled booking on slot1 at date0. -/
def bookC : Booking :=
  { id := 11, serviceId := 1, timeSlotId := 1, date := date0, status := .cancelled,
    cancelReason := some "no-show", message := "", customerKey := "a" }

/-- A state holding slot1 and no bookings. -/
def sOpen : State :=
  { slots := [slot1], bookings := [], counters := [], nextBookingId := 10, nextSlotId := 2 }

/-- A state in which the occurrence (slot1, date0) is full. -/
def sFull : State :=
  { slots := [slot1], bookings := [book1], counters := setCount [] (1, date0) 1,
    nextBookingId := 11, nextSlotId := 2 }

/-- A state holding one cancelled booking. -/
def sCan : State :=
  { slots := [slot1], bookings := [bookC], counters := [], nextBookingId := 12, nextSlotId := 2 }

/-- The state produced by admitting customer a at date0 in sOpen. -/
def sAfter : State :=
  { slots := [slot1], bookings := [mkBooking sOpen 1 1 date0 "a" ""],
    counters := setCount [] (1, date0) 1, nextBookingId := 11, nextSlotId := 2 }

/-- The event list emitted by that admission. -/
def evAfter : List Event := [{ eventType := "bookings.create", bookingId := 10 }]

/-- The state produced by hard-deleting the concrete booking from sFull. -/
def sDel : State :=
  { slots := [slot1], bookings := [],
    counters := releaseSeat (setCount [] (1, date0) 1) 1 date0,
    nextBookingId := 11, nextSlotId := 2 }

/-- A valid batch-upsert element (insert). -/
def slotInOk : SlotInput :=
  { id := none, dayOfWeek := 2, startTime := 540, endTime := 1020, maxBookings := 5 }

/-- An invalid batch-upsert element: start_time not before end_time. -/
def slotInBad : SlotInput :=
  { id := none, dayOfWeek := 5, startTime := 840, endTime := 540, maxBookings := 6 }

/-! ### Helper lemmas -/

theorem getCount_setCount (l : List (OccKey × Int)) (k k2 : OccKey) (v : Int) :
    getCount (setCount l k v) k2 = if k2 = k then v else getCount l k2 := by
  by_cases h : k2 = k
  · subst h
    simp [getCount, setCount, List.find?]
  · simp only [getCount, setCount, List.find?, if_neg h]
    have hne : decide (k = k2) = false := by
      simp [decide_eq_false_iff_not]
      exact fun hh => h hh.symm
    rw [hne]
    simp only [Bool.false_eq_true, if_false]
    congr 1
    induction l with
    | nil => rfl
    | cons e es ih =>
      by_cases he : e.1 = k
      · have h1 : (!decide (e.1 = k)) = false := by simp [he]
        have h2 : decide (e.1 = k2) = false := by
          simp [decide_eq_false_iff_not]
          exact fun hh => h (he ▸ hh ▸ rfl)
        simp [List.filter, h1, List.find?, h2, ih]
      · have h1 : (!decide (e.1 = k)) = true := by simp [he]
        simp only [List.filter, h1, List.find?]
        cases hd : decide (e.1 = k2) with
        | true => rfl
        | false => exact ih

theorem getCount_releaseSeat (l : List (OccKey × Int)) (tsId : Nat) (d : Date) (k2 : OccKey) :
    getCount (releaseSeat l tsId d) k2 =
      if k2 = (tsId, d) then max 0 (getCount l (tsId, d) - 1) else getCount l k2 := by
  simp [releaseSeat, getCount_setCount]

theorem countP_updateList (p : Booking → Bool) (bid : Nat) (nb b0 : Booking)
    (bs : List Booking) (h : bs.find? (fun b => decide (b.id = bid)) = some b0) :
    (updateList bid nb bs).countP p + (if p b0 then 1 else 0) =
      bs.countP p + (if p nb then 1 else 0) := by
  induction bs with
  | nil => simp [List.find?] at h
  | cons x xs ih =>
    by_cases hx : x.id = bid
    · rw [List.find?_cons_of_pos _ (by simp [hx])] at h
      cases h
      simp only [updateList, if_pos hx, List.countP_cons]
      omega
    · rw [List.find?_cons_of_neg _ (by simp [hx])] at h
      have := ih h
      simp only [updateList, if_neg hx, List.countP_cons]
      omega

theorem countP_removeList (p : Booking → Bool) (bid : Nat) (b0 : Booking)
    (bs : List Booking) (h : bs.find? (fun b => decide (b.id = bid)) = some b0) :
    (removeList bid bs).countP p + (if p b0 then 1 else 0) = bs.countP p := by
  induction bs with
  | nil => simp [List.find?] at h
  | cons x xs ih =>
    by_cases hx : x.id = bid
    · rw [List.find?_cons_of_pos _ (by simp [hx])] at h
      cases h
      simp only [removeList, if_pos hx, List.countP_cons]
    · rw [List.find?_cons_of_neg _ (by simp [hx])] at h
      have := ih h
      simp only [removeList, if_neg hx, List.countP_cons]
      omega

theorem mem_updateList {a nb : Booking} {bid : Nat} {bs : List Booking}
    (h : a ∈ updateList bid nb bs) : a = nb ∨ a ∈ bs := by
  induction bs with
  | nil => simp [updateList] at h
  | cons x xs ih =>
    by_cases hx : x.id = bid
    · simp only [updateList, if_pos hx, List.mem_cons] at h
      rcases h with h | h
      · exact Or.inl h
      · exact Or.inr (List.mem_cons_of_mem _ h)
    · simp only [updateList, if_neg hx, List.mem_cons] at h
      rcases h with h | h
      · exact Or.inr (h ▸ List.mem_cons_self _ _)
      · rcases ih h with h2 | h2
        · exact Or.inl h2
        · exact Or.inr (List.mem_cons_of_mem _ h2)

theorem mem_removeList {a : Booking} {bid : Nat} {bs : List Booking}
    (h : a ∈ removeList bid bs) : a ∈ bs := by
  induction bs with
  | nil => simp [removeList] at h
  | cons x xs ih =>
    by_cases hx : x.id = bid
    · simp only [removeList, if_pos hx] at h
      exact List.mem_cons_of_mem _ h
    · simp only [removeList, if_neg hx, List.mem_cons] at h
      rcases h with h | h
      · exact h ▸ List.mem_cons_self _ _
      · exact List.mem_cons_of_mem _ (ih h)

theorem find?_updateList {bid : Nat} {nb b0 : Booking} {bs : List Booking}
    (h : bs.find? (fun b => decide (b.id = bid)) = some b0) (hid : nb.id = b0.id) :
    (updateList bid nb bs).find? (fun b => decide (b.id = bid)) = some nb := by
  induction bs with
  | nil => simp [List.find?] at h
  | cons x xs ih =>
    by_cases hx : x.id = bid
    · rw [List.find?_cons_of_pos _ (by simp [hx])] at h
      cases h
      have : nb.id = bid := by rw [hid, hx]
      simp only [updateList, if_pos hx]
      rw [List.find?_cons_of_pos _ (by simp [this])]
    · rw [List.find?_cons_of_neg _ (by simp [hx])] at h
      simp only [updateList, if_neg hx]
      rw [List.find?_cons_of_neg _ (by simp [hx])]
      exact ih h

/-- Characterization of a successful admission: the exact conditions that
were checked and the exact state and event list produced. -/
theorem createBooking_ok_inv {wk : Date → Nat} {s : State} {serviceId tsId : Nat}
    {dateStr ck msg : String} {s2 : State} {ev : List Event}
    (h : createBooking wk s serviceId tsId dateStr ck msg = .ok (s2, ev)) :
    ∃ date t, parseDate dateStr = .ok date ∧ resolveSlot s tsId = some t ∧
      t.serviceId = serviceId ∧ t.dayOfWeek = wk date ∧
      hasDuplicate s.bookings ck tsId date = false ∧
      getCount s.counters (tsId, date) < (t.maxBookings : Int) ∧
      s2 = { s with
             bookings := mkBooking s serviceId tsId date ck msg :: s.bookings,
             counters := setCount s.counters (tsId, date) (getCount s.counters (tsId, date) + 1),
             nextBookingId := s.nextBookingId + 1 } ∧
      ev = [{ eventType := "bookings.create", bookingId := s.nextBookingId }] := by
  unfold createBooking at h
  split at h
  · exact absurd h (by simp)
  next date hp =>
    split at h
    · exact absurd h (by simp)
    next t hr =>
      split at h
      next hok =>
        split at h
        · exact absurd h (by simp)
        next hd =>
          split at h
          · exact absurd h (by simp)
          next led hled =>
            have hcap : getCount s.counters (tsId, date) < (t.maxBookings : Int) := by
              by_contra hnc
              simp only [reserveSeat, if_neg hnc] at hled
              exact absurd hled (by simp)
            have hset : led = setCount s.counters (tsId, date) (getCount s.counters (tsId, date) + 1) := by
              simp only [reserveSeat, if_pos hcap] at hled
              exact (Except.ok.inj hled).symm
            cases h
            exact ⟨date, t, hp, hr, hok.1, hok.2, by simpa using hd, hcap, by rw [hset], rfl⟩
      · exact absurd h (by simp)

/-- Characterization of a successful status update: the located row, the
reason the transition was allowed, and the exact state produced. -/
theorem updateBookingStatus_ok_inv {s : State} {bid : Nat} {st : Status}
    {reason : Option String} {s2 : State}
    (h : updateBookingStatus s bid st reason = .ok s2) :
    ∃ b0, s.bookings.find? (fun b => decide (b.id = bid)) = some b0 ∧
      b0.status ≠ Status.cancelled ∧
      ((∃ r, st = Status.cancelled ∧ reason = some r ∧
         s2 = { s with
                bookings := updateList bid { b0 with status := Status.cancelled, cancelReason := some r } s.bookings,
                counters := releaseSeat s.counters b0.timeSlotId b0.date }) ∨
       (st ≠ Status.cancelled ∧
         s2 = { s with bookings := updateList bid { b0 with status := st } s.bookings })) := by
  unfold updateBookingStatus at h
  split at h
  · exact absurd h (by simp)
  next b0 hf =>
    split at h
    · exact absurd h (by simp)
    next hnc =>
      refine ⟨b0, hf, hnc, ?_⟩
      cases st with
      | cancelled =>
        cases reason with
        | none => exact absurd h (by simp)
        | some r =>
          left
          exact ⟨r, rfl, rfl, by cases h; rfl⟩
      | pending =>
        right
        exact ⟨by simp, by cases h; rfl⟩
      | confirmed =>
        right
        exact ⟨by simp, by cases h; rfl⟩

/-- Characterization of a successful hard delete: the located row, the
documented response, and the exact state produced. -/
theorem deleteBooking_ok_inv {s : State} {bid : Nat} {s2 : State} {resp : JVal}
    (h : deleteBooking s bid = .ok (s2, resp)) :
    ∃ b0, s.bookings.find? (fun b => decide (b.id = bid)) = some b0 ∧
      resp = okEnvelope (.str "ok") ∧
      s2 = { s with
             bookings := removeList bid s.bookings,
             counters := if b0.status = Status.cancelled then s.counters else releaseSeat s.counters b0.timeSlotId b0.date } := by
  unfold deleteBooking at h
  split at h
  · exact absurd h (by simp)
  next b0 hf =>
    exact ⟨b0, hf, by cases h; rfl, by cases h; rfl⟩

theorem occPred_mkBooking (s : State) (serviceId tsId : Nat) (date : Date)
    (ck msg : String) (t2 : Nat) (d2 : Date) :
    occPred t2 d2 (mkBooking s serviceId tsId date ck msg) =
      (decide (tsId = t2) && decide (date = d2)) := by
  simp [occPred, mkBooking]

/-- Preservation of the ledger-consistency and capacity invariants by a
successful booking admission. -/
theorem inv_createBooking {wk : Date → Nat} {s : State} {serviceId tsId : Nat}
    {dateStr ck msg : String} {s2 : State} {ev : List Event}
    (hL : LedgerInv s) (hC : CapInv s)
    (h : createBooking wk s serviceId tsId dateStr ck msg = .ok (s2, ev)) :
    LedgerInv s2 ∧ CapInv s2 := by
  obtain ⟨date, t, hp, hr, hsid, hdow, hd, hcap, hs2, hev⟩ := createBooking_ok_inv h
  subst hs2
  have hocc : ∀ t2 d2, occCount (mkBooking s serviceId tsId date ck msg :: s.bookings) t2 d2 =
      occCount s.bookings t2 d2 + (if (t2, d2) = (tsId, date) then 1 else 0) := by
    intro t2 d2
    simp only [occCount, List.countP_cons, occPred_mkBooking]
    by_cases hk : (t2, d2) = (tsId, date)
    · have h1 : tsId = t2 := by
        rw [Prod.mk.injEq] at hk
        exact hk.1.symm
      have h2 : date = d2 := by
        rw [Prod.mk.injEq] at hk
        exact hk.2.symm
      simp [hk, h1, h2]
    · have : ¬(tsId = t2 ∧ date = d2) := by
        intro hcon
        exact hk (by rw [Prod.mk.injEq]; exact ⟨hcon.1.symm, hcon.2.symm⟩)
      rw [if_neg hk]
      rcases Decidable.not_and_iff_or_not.mp this with hno | hno <;> simp [hno]
  constructor
  · intro t2 d2
    simp only
    rw [getCount_setCount, hocc]
    by_cases hk : ((t2 : Nat), d2) = (tsId, date)
    · rw [if_pos hk, if_pos hk]
      rw [Prod.mk.injEq] at hk
      rw [hk.1, hk.2, hL tsId date]
      push_cast
      ring
    · rw [if_neg hk, if_neg hk, hL t2 d2]
      push_cast
      ring
  · intro tsId2 d2 t2 hres
    have hres2 : resolveSlot s tsId2 = some t2 := hres
    show occCount (mkBooking s serviceId tsId date ck msg :: s.bookings) tsId2 d2 ≤ t2.maxBookings
    rw [hocc]
    by_cases hk : ((tsId2 : Nat), d2) = (tsId, date)
    · rw [if_pos hk]
      have htt : t2 = t := by
        rw [Prod.mk.injEq] at hk
        rw [hk.1] at hres2
        rw [hres2] at hr
        exact Option.some.inj hr
      have hnat : occCount s.bookings tsId date < t.maxBookings := by
        have := hL tsId date ▸ hcap
        exact_mod_cast this
      rw [Prod.mk.injEq] at hk
      rw [htt, hk.1, hk.2]
      omega
    · rw [if_neg hk]
      simpa using hC tsId2 d2 t2 hres2

theorem occPred_self {b0 : Booking} (hnc : b0.status ≠ Status.cancelled) :
    occPred b0.timeSlotId b0.date b0 = true := by
  simp [occPred, hnc]

theorem occPred_live_iff {b0 : Booking} (hnc : b0.status ≠ Status.cancelled)
    (t2 : Nat) (d2 : Date) :
    occPred t2 d2 b0 = true ↔ ((t2 : Nat), d2) = (b0.timeSlotId, b0.date) := by
  simp only [occPred, Bool.and_eq_true, decide_eq_true_eq, Bool.not_eq_true,
    decide_eq_false_iff_not, Prod.mk.injEq]
  constructor
  · rintro ⟨⟨h1, h2⟩, h3⟩
    exact ⟨h1.symm, h2.symm⟩
  · rintro ⟨h1, h2⟩
    exact ⟨⟨h1.symm, h2.symm⟩, by simpa using hnc⟩

/-- Preservation of the ledger-consistency and capacity invariants by a
successful status update. -/
theorem inv_updateBookingStatus {s : State} {bid : Nat} {st : Status}
    {reason : Option String} {s2 : State}
    (hL : LedgerInv s) (hC : CapInv s)
    (h : updateBookingStatus s bid st reason = .ok s2) :
    LedgerInv s2 ∧ CapInv s2 := by
  obtain ⟨b0, hf, hnc, hcase⟩ := updateBookingStatus_ok_inv h
  have hmem : b0 ∈ s.bookings := List.mem_of_find?_eq_some hf
  rcases hcase with ⟨r, hst, hre, hs2⟩ | ⟨hst, hs2⟩
  · subst hs2
    have hcnt : ∀ t2 d2,
        occCount (updateList bid { b0 with status := Status.cancelled, cancelReason := some r } s.bookings) t2 d2 + (if occPred t2 d2 b0 then 1 else 0) = occCount s.bookings t2 d2 := by
      intro t2 d2
      have := countP_updateList (occPred t2 d2) bid
        { b0 with status := Status.cancelled, cancelReason := some r } b0 s.bookings hf
      have hz : occPred t2 d2 { b0 with status := Status.cancelled, cancelReason := some r } = false := by
        simp [occPred]
      rw [hz] at this
      simpa [occCount] using this
    have hone : 1 ≤ occCount s.bookings b0.timeSlotId b0.date :=
      List.countP_pos_iff.mpr ⟨b0, hmem, occPred_self hnc⟩
    constructor
    · intro t2 d2
      show getCount (releaseSeat s.counters b0.timeSlotId b0.date) (t2, d2) =
        ((occCount (updateList bid { b0 with status := Status.cancelled, cancelReason := some r } s.bookings) t2 d2 : Nat) : Int)
      rw [getCount_releaseSeat]
      by_cases hk : ((t2 : Nat), d2) = (b0.timeSlotId, b0.date)
      · rw [if_pos hk, hL b0.timeSlotId b0.date]
        have hbit : occPred t2 d2 b0 = true := (occPred_live_iff hnc t2 d2).mpr hk
        have hc2 := hcnt t2 d2
        rw [if_pos hbit] at hc2
        rw [Prod.mk.injEq] at hk
        rw [hk.1, hk.2] at hc2 ⊢
        have h1 : (1 : Int) ≤ (occCount s.bookings b0.timeSlotId b0.date : Int) := by
          exact_mod_cast hone
        have hmax : max 0 ((occCount s.bookings b0.timeSlotId b0.date : Int) - 1) = (occCount s.bookings b0.timeSlotId b0.date : Int) - 1 := max_eq_right (by omega)
        rw [hmax]
        omega
      · rw [if_neg hk, hL t2 d2]
        have hbit : occPred t2 d2 b0 = false := by
          cases hcon : occPred t2 d2 b0 with
          | false => rfl
          | true => exact absurd ((occPred_live_iff hnc t2 d2).mp hcon) hk
        have hc2 := hcnt t2 d2
        rw [if_neg (by simp [hbit])] at hc2
        rw [Nat.add_zero] at hc2
        rw [hc2]
    · intro tsId2 d2 t2 hres
      have hres2 : resolveSlot s tsId2 = some t2 := hres
      show occCount (updateList bid { b0 with status := Status.cancelled, cancelReason := some r } s.bookings) tsId2 d2 ≤ t2.maxBookings
      have hc2 := hcnt tsId2 d2
      have hle : occCount (updateList bid { b0 with status := Status.cancelled, cancelReason := some r } s.bookings) tsId2 d2 ≤ occCount s.bookings tsId2 d2 := by omega
      exact le_trans hle (hC tsId2 d2 t2 hres2)
  · subst hs2
    have hcnt : ∀ t2 d2,
        occCount (updateList bid { b0 with status := st } s.bookings) t2 d2 = occCount s.bookings t2 d2 := by
      intro t2 d2
      have := countP_updateList (occPred t2 d2) bid { b0 with status := st } b0 s.bookings hf
      have hb : occPred t2 d2 { b0 with status := st } = occPred t2 d2 b0 := by
        simp [occPred, hst, hnc]
      rw [hb] at this
      simpa [occCount] using this
    constructor
    · intro t2 d2
      show getCount s.counters (t2, d2) =
        ((occCount (updateList bid { b0 with status := st } s.bookings) t2 d2 : Nat) : Int)
      rw [hL t2 d2, hcnt t2 d2]
    · intro tsId2 d2 t2 hres
      have hres2 : resolveSlot s tsId2 = some t2 := hres
      show occCount (updateList bid { b0 with status := st } s.bookings) tsId2 d2 ≤ t2.maxBookings
      rw [hcnt]
      exact hC tsId2 d2 t2 hres2

/-- Preservation of the ledger-consistency and capacity invariants by a hard
delete. -/
theorem inv_deleteBooking {s : State} {bid : Nat} {s2 : State} {resp : JVal}
    (hL : LedgerInv s) (hC : CapInv s)
    (h : deleteBooking s bid = .ok (s2, resp)) :
    LedgerInv s2 ∧ CapInv s2 := by
  obtain ⟨b0, hf, hresp, hs2⟩ := deleteBooking_ok_inv h
  have hmem : b0 ∈ s.bookings := List.mem_of_find?_eq_some hf
  subst hs2
  have hcnt : ∀ t2 d2,
      occCount (removeList bid s.bookings) t2 d2 + (if occPred t2 d2 b0 then 1 else 0) = occCount s.bookings t2 d2 := by
    intro t2 d2
    simpa [occCount] using countP_removeList (occPred t2 d2) bid b0 s.bookings hf
  by_cases hbc : b0.status = Status.cancelled
  · have hbit : ∀ t2 d2, occPred t2 d2 b0 = false := by
      intro t2 d2
      simp [occPred, hbc]
    constructor
    · intro t2 d2
      show getCount (if b0.status = Status.cancelled then s.counters else releaseSeat s.counters b0.timeSlotId b0.date) (t2, d2) =
        ((occCount (removeList bid s.bookings) t2 d2 : Nat) : Int)
      rw [if_pos hbc, hL t2 d2]
      have hc2 := hcnt t2 d2
      rw [if_neg (by simp [hbit])] at hc2
      rw [Nat.add_zero] at hc2
      rw [hc2]
    · intro tsId2 d2 t2 hres
      have hres2 : resolveSlot s tsId2 = some t2 := hres
      show occCount (removeList bid s.bookings) tsId2 d2 ≤ t2.maxBookings
      have hc2 := hcnt tsId2 d2
      have hle : occCount (removeList bid s.bookings) tsId2 d2 ≤ occCount s.bookings tsId2 d2 := by omega
      exact le_trans hle (hC tsId2 d2 t2 hres2)
  · have hone : 1 ≤ occCount s.bookings b0.timeSlotId b0.date :=
      List.countP_pos_iff.mpr ⟨b0, hmem, occPred_self hbc⟩
    constructor
    · intro t2 d2
      show getCount (if b0.status = Status.cancelled then s.counters else releaseSeat s.counters b0.timeSlotId b0.date) (t2, d2) =
        ((occCount (removeList bid s.bookings) t2 d2 : Nat) : Int)
      rw [if_neg hbc, getCount_releaseSeat]
      by_cases hk : ((t2 : Nat), d2) = (b0.timeSlotId, b0.date)
      · rw [if_pos hk, hL b0.timeSlotId b0.date]
        have hbit : occPred t2 d2 b0 = true := (occPred_live_iff hbc t2 d2).mpr hk
        have hc2 := hcnt t2 d2
        rw [if_pos hbit] at hc2
        rw [Prod.mk.injEq] at hk
        rw [hk.1, hk.2] at hc2 ⊢
        have h1 : (1 : Int) ≤ (occCount s.bookings b0.timeSlotId b0.date : Int) := by
          exact_mod_cast hone
        have hmax : max 0 ((occCount s.bookings b0.timeSlotId b0.date : Int) - 1) = (occCount s.bookings b0.timeSlotId b0.date : Int) - 1 := max_eq_right (by omega)
        rw [hmax]
        omega
      · rw [if_neg hk, hL t2 d2]
        have hbit : occPred t2 d2 b0 = false := by
          cases hcon : occPred t2 d2 b0 with
          | false => rfl
          | true => exact absurd ((occPred_live_iff hbc t2 d2).mp hcon) hk
        have hc2 := hcnt t2 d2
        rw [if_neg (by simp [hbit])] at hc2
        rw [Nat.add_zero] at hc2
        rw [hc2]
    · intro tsId2 d2 t2 hres
      have hres2 : resolveSlot s tsId2 = some t2 := hres
      show occCount (removeList bid s.bookings) tsId2 d2 ≤ t2.maxBookings
      have hc2 := hcnt tsId2 d2
      have hle : occCount (removeList bid s.bookings) tsId2 d2 ≤ occCount s.bookings tsId2 d2 := by omega
      exact le_trans hle (hC tsId2 d2 t2 hres2)

/-- The admission result once the date has parsed and the slot has resolved
with matching service and weekday: only the duplicate check and the capacity
reservation remain. -/
theorem createBooking_after_slot {wk : Date → Nat} {s : State} {serviceId tsId : Nat}
    {dateStr ck msg : String} {date : Date} {t : TimeSlot}
    (hp : parseDate dateStr = .ok date) (hr : resolveSlot s tsId = some t)
    (hsid : t.serviceId = serviceId) (hdow : t.dayOfWeek = wk date) :
    createBooking wk s serviceId tsId dateStr ck msg =
      (if hasDuplicate s.bookings ck tsId date then .error .duplicateBooking
       else match reserveSeat s.counters tsId date t.maxBookings with
         | .error e => .error e
         | .ok led =>
           .ok ({ s with
                  bookings := mkBooking s serviceId tsId date ck msg :: s.bookings,
                  counters := led,
                  nextBookingId := s.nextBookingId + 1 },
                [{ eventType := "bookings.create", bookingId := s.nextBookingId }])) := by
  simp only [createBooking, hp, hr]
  rw [if_pos ⟨hsid, hdow⟩]

/-- With the date parsed and the slot resolved and matching, the admission
fails with DuplicateBookingError exactly when a live booking for the same
(customer, time slot, date) triple already exists. -/
theorem createBooking_duplicate_iff {wk : Date → Nat} {s : State} {serviceId tsId : Nat}
    {dateStr ck msg : String} {date : Date} {t : TimeSlot}
    (hp : parseDate dateStr = .ok date) (hr : resolveSlot s tsId = some t)
    (hsid : t.serviceId = serviceId) (hdow : t.dayOfWeek = wk date) :
    createBooking wk s serviceId tsId dateStr ck msg = .error .duplicateBooking ↔
      hasDuplicate s.bookings ck tsId date = true := by
  rw [createBooking_after_slot hp hr hsid hdow]
  constructor
  · intro h
    by_contra hnd
    have hd : hasDuplicate s.bookings ck tsId date = false := by
      cases hdd : hasDuplicate s.bookings ck tsId date with
      | false => rfl
      | true => exact absurd hdd hnd
    rw [if_neg (by simp [hd])] at h
    cases hres : reserveSeat s.counters tsId date t.maxBookings with
    | ok led =>
      rw [hres] at h
      exact absurd h (by simp)
    | error e =>
      rw [hres] at h
      have he : e = BErr.capacityExceeded := by
        simp only [reserveSeat] at hres
        by_cases hc : getCount s.counters (tsId, date) < (t.maxBookings : Int)
        · rw [if_pos hc] at hres
          exact absurd hres (by simp)
        · rw [if_neg hc] at hres
          exact (Except.error.inj hres).symm
      rw [he] at h
      exact absurd (Except.error.inj h) (by simp)
  · intro hd
    rw [if_pos hd]

/-- With the date parsed, the slot resolved and matching, and no duplicate,
admission against a full occurrence fails with CapacityExceededError. -/
theorem createBooking_full {wk : Date → Nat} {s : State} {serviceId tsId : Nat}
    {dateStr ck msg : String} {date : Date} {t : TimeSlot}
    (hL : LedgerInv s)
    (hp : parseDate dateStr = .ok date) (hr : resolveSlot s tsId = some t)
    (hsid : t.serviceId = serviceId) (hdow : t.dayOfWeek = wk date)
    (hd : hasDuplicate s.bookings ck tsId date = false)
    (hfull : occCount s.bookings tsId date = t.maxBookings) :
    createBooking wk s serviceId tsId dateStr ck msg = .error .capacityExceeded := by
  rw [createBooking_after_slot hp hr hsid hdow]
  rw [if_neg (by simp [hd])]
  have hnlt : ¬ getCount s.counters (tsId, date) < (t.maxBookings : Int) := by
    rw [hL tsId date, hfull]
    exact lt_irrefl _
  have hres : reserveSeat s.counters tsId date t.maxBookings = .error .capacityExceeded := by
    unfold reserveSeat
    rw [if_neg hnlt]
  rw [hres]

/-- With the date parsed, the slot resolved and matching, no duplicate, and
spare capacity, admission succeeds. -/
theorem createBooking_spare {wk : Date → Nat} {s : State} {serviceId tsId : Nat}
    {dateStr ck msg : String} {date : Date} {t : TimeSlot}
    (hp : parseDate dateStr = .ok date) (hr : resolveSlot s tsId = some t)
    (hsid : t.serviceId = serviceId) (hdow : t.dayOfWeek = wk date)
    (hd : hasDuplicate s.bookings ck tsId date = false)
    (hlt : getCount s.counters (tsId, date) < (t.maxBookings : Int)) :
    ∃ s2 ev, createBooking wk s serviceId tsId dateStr ck msg = .ok (s2, ev) := by
  rw [createBooking_after_slot hp hr hsid hdow]
  rw [if_neg (by simp [hd])]
  have hres : reserveSeat s.counters tsId date t.maxBookings =
      .ok (setCount s.counters (tsId, date) (getCount s.counters (tsId, date) + 1)) := by
    unfold reserveSeat
    rw [if_pos hlt]
  rw [hres]
  exact ⟨_, _, rfl⟩

/-- A batch with any invalid element always errors, whatever the working
copy. -/
theorem batchUpsertGo_error {serviceId : Nat} {xs : List SlotInput}
    (hx : ∃ x ∈ xs, validateSlot x = false) (acc : List TimeSlot × Nat) :
    ∃ e, batchUpsertGo serviceId acc xs = .error e := by
  induction xs generalizing acc with
  | nil => simp at hx
  | cons x rest ih =>
    rcases hx with ⟨y, hy, hv⟩
    rcases List.mem_cons.mp hy with rfl | hmem
    · refine ⟨.validation "invalid_request", ?_⟩
      have hu : upsertOne serviceId acc y = .error (.validation "invalid_request") := by
        unfold upsertOne
        rw [if_neg (by simp [hv])]
      simp only [batchUpsertGo, hu]
    · cases hu : upsertOne serviceId acc x with
      | ok acc2 =>
        obtain ⟨e, he⟩ := ih ⟨y, hmem, hv⟩ acc2
        refine ⟨e, ?_⟩
        simp only [batchUpsertGo, hu]
        exact he
      | error e =>
        refine ⟨e, ?_⟩
        simp only [batchUpsertGo, hu]

theorem createBooking_bad_date {wk : Date → Nat} {s : State} {serviceId tsId : Nat}
    {dateStr ck msg : String} {e : BErr} (hp : parseDate dateStr = .error e) :
    createBooking wk s serviceId tsId dateStr ck msg = .error e := by
  simp only [createBooking, hp]

theorem createBooking_no_slot {wk : Date → Nat} {s : State} {serviceId tsId : Nat}
    {dateStr ck msg : String} {date : Date}
    (hp : parseDate dateStr = .ok date) (hr : resolveSlot s tsId = none) :
    createBooking wk s serviceId tsId dateStr ck msg = .error (.notFound "time_slot_not_found") := by
  simp only [createBooking, hp, hr]

theorem createBooking_slot_mismatch {wk : Date → Nat} {s : State} {serviceId tsId : Nat}
    {dateStr ck msg : String} {date : Date} {t : TimeSlot}
    (hp : parseDate dateStr = .ok date) (hr : resolveSlot s tsId = some t)
    (hmm : ¬(t.serviceId = serviceId ∧ t.dayOfWeek = wk date)) :
    createBooking wk s serviceId tsId dateStr ck msg = .error (.notFound "time_slot_not_found") := by
  simp only [createBooking, hp, hr]
  rw [if_neg hmm]

/-- Once the slot has resolved and matched, the only failures left are the
duplicate rejection and the capacity rejection. -/
theorem createBooking_post_slot_errors {wk : Date → Nat} {s : State} {serviceId tsId : Nat}
    {dateStr ck msg : String} {date : Date} {t : TimeSlot} {e : BErr}
    (hp : parseDate dateStr = .ok date) (hr : resolveSlot s tsId = some t)
    (hsid : t.serviceId = serviceId) (hdow : t.dayOfWeek = wk date)
    (h : createBooking wk s serviceId tsId dateStr ck msg = .error e) :
    e = BErr.duplicateBooking ∨ e = BErr.capacityExceeded := by
  rw [createBooking_after_slot hp hr hsid hdow] at h
  by_cases hd : hasDuplicate s.bookings ck tsId date = true
  · rw [if_pos hd] at h
    exact Or.inl (Except.error.inj h).symm
  · rw [if_neg hd] at h
    cases hres : reserveSeat s.counters tsId date t.maxBookings with
    | ok led =>
      rw [hres] at h
      exact absurd h (by simp)
    | error e2 =>
      rw [hres] at h
      have he2 : e2 = BErr.capacityExceeded := by
        simp only [reserveSeat] at hres
        by_cases hc : getCount s.counters (tsId, date) < (t.maxBookings : Int)
        · rw [if_pos hc] at hres
          exact absurd hres (by simp)
        · rw [if_neg hc] at hres
          exact (Except.error.inj hres).symm
      have he : e = e2 := (Except.error.inj h).symm
      exact Or.inr (he.trans he2)

theorem updateBookingStatus_not_found {s : State} {bid : Nat} {st : Status}
    {reason : Option String}
    (hf : s.bookings.find? (fun x => decide (x.id = bid)) = none) :
    updateBookingStatus s bid st reason = .error (.notFound "booking_not_found") := by
  simp only [updateBookingStatus, hf]

theorem updateBookingStatus_cancelled_terminal {s : State} {bid : Nat} {b : Booking}
    (hf : s.bookings.find? (fun x => decide (x.id = bid)) = some b)
    (hb : b.status = Status.cancelled) (st : Status) (reason : Option String) :
    updateBookingStatus s bid st reason = .error .invalidStatusTransition := by
  simp only [updateBookingStatus, hf]
  rw [if_pos hb]

theorem updateBookingStatus_cancel_noreason {s : State} {bid : Nat} {b : Booking}
    (hf : s.bookings.find? (fun x => decide (x.id = bid)) = some b)
    (hnc : b.status ≠ Status.cancelled) :
    updateBookingStatus s bid Status.cancelled none = .error (.validation "missing_required_field") := by
  simp only [updateBookingStatus, hf]
  rw [if_neg hnc]

theorem updateBookingStatus_cancel_ok {s : State} {bid : Nat} {b : Booking} (r : String)
    (hf : s.bookings.find? (fun x => decide (x.id = bid)) = some b)
    (hnc : b.status ≠ Status.cancelled) :
    updateBookingStatus s bid Status.cancelled (some r) =
      .ok { s with
            bookings := updateList bid { b with status := Status.cancelled, cancelReason := some r } s.bookings,
            counters := releaseSeat s.counters b.timeSlotId b.date } := by
  simp only [updateBookingStatus, hf]
  rw [if_neg hnc]

/-- A state without bookings and without counter entries satisfies the
ledger-consistency invariant. -/
theorem ledgerInv_empty (sl : List TimeSlot) (n m : Nat) :
    LedgerInv { slots := sl, bookings := [], counters := [], nextBookingId := n, nextSlotId := m } := by
  intro tsId d
  show getCount [] (tsId, d) = ((occCount [] tsId d : Nat) : Int)
  simp [getCount, occCount]

/-- A state holding exactly one live booking and the matching counter entry
satisfies the ledger-consistency invariant. -/
theorem ledgerInv_one (sl : List TimeSlot) (b1 : Booking) (n m : Nat)
    (hnc : b1.status ≠ Status.cancelled) :
    LedgerInv { slots := sl, bookings := [b1],
                counters := setCount [] (b1.timeSlotId, b1.date) 1,
                nextBookingId := n, nextSlotId := m } := by
  intro tsId d
  show getCount (setCount [] (b1.timeSlotId, b1.date) 1) (tsId, d) = ((occCount [b1] tsId d : Nat) : Int)
  rw [getCount_setCount]
  by_cases h : ((tsId : Nat), d) = (b1.timeSlotId, b1.date)
  · rw [if_pos h]
    have hb : occPred tsId d b1 = true := (occPred_live_iff hnc tsId d).mpr h
    simp [occCount, List.countP_cons, hb]
  · rw [if_neg h]
    have hb : occPred tsId d b1 = false := by
      cases hcon : occPred tsId d b1 with
      | false => rfl
      | true => exact absurd ((occPred_live_iff hnc tsId d).mp hcon) h
    simp [occCount, List.countP_cons, hb, getCount]

/-- A state with at most one booking satisfies the capacity invariant as soon
as every slot admits at least one booking. -/
theorem capInv_le_one (s : State) (hlen : s.bookings.length ≤ 1)
    (hmax : ∀ t ∈ s.slots, 1 ≤ t.maxBookings) : CapInv s := by
  intro tsId d t hres
  have h1 : occCount s.bookings tsId d ≤ s.bookings.length := List.countP_le_length _
  have h2 := hmax t (List.mem_of_find?_eq_some hres)
  omega

/-- Concrete entry-wise bound giving counter non-negativity. -/
theorem getCount_nonneg_of_entries (l : List (OccKey × Int))
    (h : ∀ e ∈ l, 0 ≤ e.2) (k : OccKey) : 0 ≤ getCount l k := by
  rw [getCount]
  cases hf : l.find? (fun e => decide (e.1 = k)) with
  | none => simp
  | some e => exact h e (List.mem_of_find?_eq_some hf)

/-- A zero duplicate count means the Duplicate Guard reports no duplicate. -/
theorem hasDuplicate_eq_false_of_countP_zero {bs : List Booking} {ck : String}
    {tsId : Nat} {d : Date} (h : bs.countP (dupPred ck tsId d) = 0) :
    hasDuplicate bs ck tsId d = false := by
  cases hdd : hasDuplicate bs ck tsId d with
  | false => rfl
  | true =>
    rw [hasDuplicate, List.any_eq_true] at hdd
    obtain ⟨x, hx, hpx⟩ := hdd
    have := List.countP_pos_iff.mpr ⟨x, hx, hpx⟩
    omega

/-- releaseSeat keeps every non-negative counter non-negative. -/
theorem releaseSeat_nonneg (l : List (OccKey × Int)) (tsId : Nat) (d : Date)
    (k : OccKey) (h : 0 ≤ getCount l k) : 0 ≤ getCount (releaseSeat l tsId d) k := by
  rw [getCount_releaseSeat]
  by_cases hk : k = (tsId, d)
  · rw [if_pos hk]
    exact le_max_left 0 _
  · rw [if_neg hk]
    exact h

/-- The PATCH handler keeps all counters non-negative. -/
theorem nonNeg_patchBooking (s : State) (bid : Nat) (st : Status)
    (reason : Option String) (h : NonNeg s) : NonNeg (patchBooking s bid st reason).1 := by
  rw [patchBooking]
  cases hu : updateBookingStatus s bid st reason with
  | error e => exact h
  | ok s2 =>
    obtain ⟨b0, hf, hnc, hcase⟩ := updateBookingStatus_ok_inv hu
    rcases hcase with ⟨r, hst, hre, hs2⟩ | ⟨hst, hs2⟩
    · subst hs2
      intro k
      exact releaseSeat_nonneg s.counters b0.timeSlotId b0.date k (h k)
    · subst hs2
      intro k
      exact h k

/-- The DELETE handler keeps all counters non-negative. -/
theorem nonNeg_deleteBookingH (s : State) (bid : Nat) (h : NonNeg s) :
    NonNeg (deleteBookingH s bid).1 := by
  rw [deleteBookingH]
  cases hu : deleteBooking s bid with
  | error e => exact h
  | ok p =>
    obtain ⟨s2, resp⟩ := p
    obtain ⟨b0, hf, hresp, hs2⟩ := deleteBooking_ok_inv hu
    subst hs2
    intro k
    show 0 ≤ getCount (if b0.status = Status.cancelled then s.counters else releaseSeat s.counters b0.timeSlotId b0.date) k
    by_cases hbc : b0.status = Status.cancelled
    · rw [if_pos hbc]
      exact h k
    · rw [if_neg hbc]
      exact releaseSeat_nonneg s.counters b0.timeSlotId b0.date k (h k)

/-! ### Claims -/

/-- C1: Capacity invariant: for every Occurrence (time_slot_id, date), the
number of non-cancelled Bookings never exceeds the owning TimeSlot's
max_bookings; booking creation, status update and deletion each preserve the
invariant (together with the derived-counter consistency that backs it), and
an admission attempt against a full Occurrence fails with
CapacityExceededError — surfaced as time_slot_full — with no state change. -/
theorem C1_capacity_invariant (wk : Date → Nat) (s : State)
    (hL : LedgerInv s) (hC : CapInv s) :
    (∀ serviceId tsId dateStr ck msg s2 ev,
       createBooking wk s serviceId tsId dateStr ck msg = .ok (s2, ev) →
       LedgerInv s2 ∧ CapInv s2) ∧
    (∀ bid st reason s2,
       updateBookingStatus s bid st reason = .ok s2 → LedgerInv s2 ∧ CapInv s2) ∧
    (∀ bid s2 resp,
       deleteBooking s bid = .ok (s2, resp) → LedgerInv s2 ∧ CapInv s2) ∧
    (∀ serviceId tsId dateStr ck msg date t,
       parseDate dateStr = .ok date → resolveSlot s tsId = some t →
       t.serviceId = serviceId → t.dayOfWeek = wk date →
       hasDuplicate s.bookings ck tsId date = false →
       occCount s.bookings tsId date = t.maxBookings →
       postBooking wk s serviceId tsId dateStr ck msg = (s, [], some .capacityExceeded) ∧
       errCode .capacityExceeded = "time_slot_full") := by
  refine ⟨?_, ?_, ?_, ?_⟩
  · intro _ _ _ _ _ _ _ h
    exact inv_createBooking hL hC h
  · intro _ _ _ _ h
    exact inv_updateBookingStatus hL hC h
  · intro _ _ _ h
    exact inv_deleteBooking hL hC h
  · intro serviceId tsId dateStr ck msg date t hp hr hsid hdow hd hfull
    have hcb := @createBooking_full wk s serviceId tsId dateStr ck msg date t hL hp hr hsid hdow hd hfull
    exact ⟨by simp only [postBooking, hcb], rfl⟩

/-- Closed instance of C1: in the concrete full state, a second admission for
the same occurrence is rejected as time_slot_full and leaves the state
untouched. -/
theorem C1_capacity_invariant_witness :
    postBooking weekdaySun0 sFull 1 1 "2023-07-10" "b" "" = (sFull, [], some .capacityExceeded) ∧
    errCode .capacityExceeded = "time_slot_full" := by
  have hL : LedgerInv sFull := ledgerInv_one [slot1] book1 11 2 (by decide)
  have hC : CapInv sFull := by
    refine capInv_le_one sFull (by decide) ?_
    intro t ht
    rw [show sFull.slots = [slot1] from rfl, List.mem_singleton] at ht
    subst ht
    decide
  exact (C1_capacity_invariant weekdaySun0 sFull hL hC).2.2.2 1 1 "2023-07-10" "b" ""
    date0 slot1 (by decide) (by decide) (by decide) (by decide) (by decide) (by decide)

/-- C3: Batch upsert atomicity: whenever any element of the submitted batch
fails validation, PATCH /v1/time-slots rejects the whole batch and the
TimeSlot store is exactly the one it started with; more generally, on any
batch error the store is unchanged. -/
theorem C3_batch_upsert_atomicity (s : State) (serviceId : Nat) (xs : List SlotInput)
    (hx : ∃ x ∈ xs, validateSlot x = false) :
    (∃ e, patchTimeSlots s serviceId xs = (s, some e)) ∧
    (∀ e, (patchTimeSlots s serviceId xs).2 = some e → (patchTimeSlots s serviceId xs).1 = s) := by
  obtain ⟨e, he⟩ := batchUpsertGo_error hx (s.slots, s.nextSlotId)
  have hb : batchUpsertTimeSlots s serviceId xs = .error e := by
    rw [batchUpsertTimeSlots, he]
  constructor
  · exact ⟨e, by simp only [patchTimeSlots, hb]⟩
  · intro e2 h2
    simp only [patchTimeSlots, hb]

/-- Closed instance of C3: a three-element batch whose second element has
start_time after end_time is rejected whole, leaving the store unchanged. -/
theorem C3_batch_upsert_atomicity_witness :
    ∃ e, patchTimeSlots sOpen 1 [slotInOk, slotInBad, slotInOk] = (sOpen, some e) :=
  (C3_batch_upsert_atomicity sOpen 1 [slotInOk, slotInBad, slotInOk] (by decide)).1

/-- C6: Weekday admission precondition: with a well-formed date, admission
fails with NotFoundError time_slot_not_found — creating nothing — when the
slot does not resolve, is owned by another service, or has a day_of_week
different from the weekday of the parsed date; when the slot matches, the
weekday check passes and only the duplicate or capacity rejections remain. -/
theorem C6_weekday_precondition (wk : Date → Nat) (s : State) (serviceId tsId : Nat)
    (dateStr ck msg : String) (date : Date)
    (hp : parseDate dateStr = .ok date) :
    (resolveSlot s tsId = none →
       postBooking wk s serviceId tsId dateStr ck msg = (s, [], some (BErr.notFound "time_slot_not_found"))) ∧
    (∀ t, resolveSlot s tsId = some t → (t.serviceId ≠ serviceId ∨ t.dayOfWeek ≠ wk date) →
       postBooking wk s serviceId tsId dateStr ck msg = (s, [], some (BErr.notFound "time_slot_not_found"))) ∧
    (∀ t, resolveSlot s tsId = some t → t.serviceId = serviceId → t.dayOfWeek = wk date →
       ∀ e, (postBooking wk s serviceId tsId dateStr ck msg).2.2 = some e →
         e = BErr.duplicateBooking ∨ e = BErr.capacityExceeded) := by
  refine ⟨?_, ?_, ?_⟩
  · intro hr
    simp only [postBooking, createBooking_no_slot hp hr]
  · intro t hr hmm
    have hnot : ¬(t.serviceId = serviceId ∧ t.dayOfWeek = wk date) := by
      rintro ⟨h1, h2⟩
      rcases hmm with hm | hm
      · exact hm h1
      · exact hm h2
    simp only [postBooking, createBooking_slot_mismatch hp hr hnot]
  · intro t hr hsid hdow e he
    cases hres : createBooking wk s serviceId tsId dateStr ck msg with
    | ok p =>
      obtain ⟨s2, ev⟩ := p
      simp only [postBooking, hres] at he
      exact absurd he (by simp)
    | error e2 =>
      simp only [postBooking, hres] at he
      have : e2 = e := Option.some.inj he
      subst this
      exact createBooking_post_slot_errors hp hr hsid hdow hres

/-- Closed instance of C6: booking slot1 (day_of_week 1) on Tuesday
2023-07-11 is rejected as time_slot_not_found with no state change. -/
theorem C6_weekday_precondition_witness :
    postBooking weekdaySun0 sOpen 1 1 "2023-07-11" "a" "" = (sOpen, [], some (BErr.notFound "time_slot_not_found")) :=
  (C6_weekday_precondition weekdaySun0 sOpen 1 1 "2023-07-11" "a" "" date1
    (by decide)).2.1 slot1 (by decide) (Or.inr (by decide))

/-- C7: Seat release never underflows: releaseSeat keeps non-negative
counters non-negative, a zero counter stays at zero, and releasing twice for
the same booking — cancelling it and then hard-deleting it — never drives
any counter below zero. -/
theorem C7_release_never_negative :
    (∀ l tsId d k, 0 ≤ getCount l k → 0 ≤ getCount (releaseSeat l tsId d) k) ∧
    (∀ l tsId d, getCount l (tsId, d) = 0 → getCount (releaseSeat l tsId d) (tsId, d) = 0) ∧
    (∀ s : State, NonNeg s → ∀ bid r bid2,
       NonNeg ((deleteBookingH (patchBooking s bid Status.cancelled (some r)).1 bid2).1)) := by
  refine ⟨?_, ?_, ?_⟩
  · intro l tsId d k h
    exact releaseSeat_nonneg l tsId d k h
  · intro l tsId d h
    rw [getCount_releaseSeat, if_pos rfl, h]
    decide
  · intro s h bid r bid2
    exact nonNeg_deleteBookingH _ _ (nonNeg_patchBooking s bid _ _ h)

/-- Closed instance of C7: releasing the empty occurrence keeps the counter
at zero, and cancel-then-delete of the concrete booking leaves every counter
non-negative. -/
theorem C7_release_never_negative_witness :
    getCount (releaseSeat [] 1 date0) (1, date0) = 0 ∧
    NonNeg ((deleteBookingH (patchBooking sFull 10 Status.cancelled (some "sick")).1 10).1) := by
  constructor
  · exact C7_release_never_negative.2.1 [] 1 date0 (by decide)
  · have hnn : NonNeg sFull := by
      intro k
      exact getCount_nonneg_of_entries sFull.counters (by decide) k
    exact C7_release_never_negative.2.2 sFull hnn 10 "sick" 10

/-- C2: Duplicate prevention: once the date parses and the slot resolves with
matching service and weekday, createBooking fails with DuplicateBookingError
(surfaced as duplicate_booking) exactly when a non-cancelled Booking already
exists for the same (customer, time_slot_id, date) triple; and after
cancelling the blocking Booking, a fresh createBooking for the same customer
and Occurrence succeeds — cancelled bookings never block rebooking. -/
theorem C2_duplicate_prevention (wk : Date → Nat) (s : State)
    (serviceId tsId : Nat) (dateStr ck msg : String) (date : Date) (t : TimeSlot)
    (hp : parseDate dateStr = .ok date) (hr : resolveSlot s tsId = some t)
    (hsid : t.serviceId = serviceId) (hdow : t.dayOfWeek = wk date) :
    (createBooking wk s serviceId tsId dateStr ck msg = .error .duplicateBooking ↔
       hasDuplicate s.bookings ck tsId date = true) ∧
    errCode .duplicateBooking = "duplicate_booking" ∧
    (∀ bid b r, LedgerInv s → CapInv s →
       s.bookings.find? (fun x => decide (x.id = bid)) = some b →
       b.customerKey = ck → b.timeSlotId = tsId → b.date = date →
       b.status ≠ Status.cancelled →
       s.bookings.countP (dupPred ck tsId date) ≤ 1 →
       (patchBooking s bid Status.cancelled (some r)).2 = none ∧
       ∃ s2 ev, createBooking wk (patchBooking s bid Status.cancelled (some r)).1
                  serviceId tsId dateStr ck msg = .ok (s2, ev)) := by
  refine ⟨createBooking_duplicate_iff hp hr hsid hdow, rfl, ?_⟩
  intro bid b r hL hC hf hck hts hdt hnc hdupinv
  have hup := updateBookingStatus_cancel_ok r hf hnc
  have hpb : patchBooking s bid Status.cancelled (some r) =
      ({ s with
         bookings := updateList bid { b with status := Status.cancelled, cancelReason := some r } s.bookings,
         counters := releaseSeat s.counters b.timeSlotId b.date }, none) := by
    simp only [patchBooking, hup]
  refine ⟨by rw [hpb], ?_⟩
  rw [hpb]
  have hbit : dupPred ck tsId date b = true := by
    simp [dupPred, occPred, hck, hts, hdt, hnc]
  have hone : 1 ≤ s.bookings.countP (dupPred ck tsId date) :=
    List.countP_pos_iff.mpr ⟨b, List.mem_of_find?_eq_some hf, hbit⟩
  have hcnt := countP_updateList (dupPred ck tsId date) bid
    { b with status := Status.cancelled, cancelReason := some r } b s.bookings hf
  have hznb : dupPred ck tsId date { b with status := Status.cancelled, cancelReason := some r } = false := by
    simp [dupPred, occPred]
  rw [if_pos hbit, if_neg (by simp [hznb])] at hcnt
  have hzero : (updateList bid { b with status := Status.cancelled, cancelReason := some r } s.bookings).countP (dupPred ck tsId date) = 0 := by
    omega
  have hnodup : hasDuplicate (updateList bid { b with status := Status.cancelled, cancelReason := some r } s.bookings) ck tsId date = false :=
    hasDuplicate_eq_false_of_countP_zero hzero
  have hoccbit : occPred tsId date b = true := by
    simp [occPred, hts, hdt, hnc]
  have hoccpos : 1 ≤ occCount s.bookings tsId date :=
    List.countP_pos_iff.mpr ⟨b, List.mem_of_find?_eq_some hf, hoccbit⟩
  have hocccap : occCount s.bookings tsId date ≤ t.maxBookings := hC tsId date t hr
  have hkey : ((tsId : Nat), date) = (b.timeSlotId, b.date) := by
    rw [hts, hdt]
  have hLb := hL b.timeSlotId b.date
  rw [hts, hdt] at hLb
  have hlt : getCount (releaseSeat s.counters b.timeSlotId b.date) (tsId, date) < (t.maxBookings : Int) := by
    rw [getCount_releaseSeat, if_pos hkey, ← hkey, hLb]
    have hx1 : (1 : Int) ≤ (occCount s.bookings tsId date : Int) := by
      exact_mod_cast hoccpos
    have hx2 : (occCount s.bookings tsId date : Int) ≤ (t.maxBookings : Int) := by
      exact_mod_cast hocccap
    have hmax : max 0 ((occCount s.bookings tsId date : Int) - 1) = (occCount s.bookings tsId date : Int) - 1 := max_eq_right (by omega)
    rw [hmax]
    omega
  exact createBooking_spare hp hr hsid hdow hnodup hlt

/-- Closed instance of C2: in the concrete full state, customer a is rejected
as a duplicate exactly because a live booking exists, and after cancelling it
the rebooking attempt succeeds. -/
theorem C2_duplicate_prevention_witness :
    (createBooking weekdaySun0 sFull 1 1 "2023-07-10" "a" "" = .error .duplicateBooking ↔
       hasDuplicate sFull.bookings "a" 1 date0 = true) ∧
    (patchBooking sFull 10 Status.cancelled (some "moved")).2 = none ∧
    (∃ s2 ev, createBooking weekdaySun0 (patchBooking sFull 10 Status.cancelled (some "moved")).1
        1 1 "2023-07-10" "a" "" = .ok (s2, ev)) := by
  have hmain := C2_duplicate_prevention weekdaySun0 sFull 1 1 "2023-07-10" "a" "" date0 slot1
    (by decide) (by decide) (by decide) (by decide)
  have hL : LedgerInv sFull := ledgerInv_one [slot1] book1 11 2 (by decide)
  have hC : CapInv sFull := by
    refine capInv_le_one sFull (by decide) ?_
    intro t ht
    rw [show sFull.slots = [slot1] from rfl, List.mem_singleton] at ht
    subst ht
    decide
  have hpart := hmain.2.2 10 book1 "moved" hL hC (by decide) (by decide) (by decide)
    (by decide) (by decide) (by decide)
  exact ⟨hmain.1, hpart.1, hpart.2⟩

/-- C4: Cancellation contract: a PATCH of a pending or confirmed Booking to
status cancelled without a cancel_reason fails with ValidationError and
leaves the state — booking and capacity counter included — unchanged; the
same PATCH with a cancel_reason succeeds, sets the status to cancelled, and
decrements exactly the Occurrence's capacity counter by exactly 1. -/
theorem C4_cancellation_contract (s : State) (bid : Nat) (b : Booking)
    (hf : s.bookings.find? (fun x => decide (x.id = bid)) = some b)
    (hst : b.status = Status.pending ∨ b.status = Status.confirmed)
    (hcnt : 1 ≤ getCount s.counters (b.timeSlotId, b.date)) :
    patchBooking s bid Status.cancelled none = (s, some (BErr.validation "missing_required_field")) ∧
    (∀ r, (patchBooking s bid Status.cancelled (some r)).2 = none ∧
       (patchBooking s bid Status.cancelled (some r)).1.bookings.find? (fun x => decide (x.id = bid)) = some { b with status := Status.cancelled, cancelReason := some r } ∧
       getCount (patchBooking s bid Status.cancelled (some r)).1.counters (b.timeSlotId, b.date) = getCount s.counters (b.timeSlotId, b.date) - 1 ∧
       (∀ k, k ≠ (b.timeSlotId, b.date) →
          getCount (patchBooking s bid Status.cancelled (some r)).1.counters k = getCount s.counters k)) := by
  have hnc : b.status ≠ Status.cancelled := by
    rcases hst with h | h <;> simp [h]
  constructor
  · simp only [patchBooking, updateBookingStatus_cancel_noreason hf hnc]
  · intro r
    have hup := updateBookingStatus_cancel_ok r hf hnc
    have hpb : patchBooking s bid Status.cancelled (some r) =
        ({ s with
           bookings := updateList bid { b with status := Status.cancelled, cancelReason := some r } s.bookings,
           counters := releaseSeat s.counters b.timeSlotId b.date }, none) := by
      simp only [patchBooking, hup]
    rw [hpb]
    refine ⟨rfl, ?_, ?_, ?_⟩
    · exact find?_updateList hf rfl
    · show getCount (releaseSeat s.counters b.timeSlotId b.date) (b.timeSlotId, b.date) = _
      rw [getCount_releaseSeat, if_pos rfl]
      have hmax : max 0 (getCount s.counters (b.timeSlotId, b.date) - 1) = getCount s.counters (b.timeSlotId, b.date) - 1 := max_eq_right (by omega)
      rw [hmax]
    · intro k hk
      show getCount (releaseSeat s.counters b.timeSlotId b.date) k = _
      rw [getCount_releaseSeat, if_neg hk]

/-- Closed instance of C4: cancelling the concrete pending booking without a
reason is rejected with the state untouched; with a reason the occurrence
counter drops from 1 to 0. -/
theorem C4_cancellation_contract_witness :
    patchBooking sFull 10 Status.cancelled none = (sFull, some (BErr.validation "missing_required_field")) ∧
    (patchBooking sFull 10 Status.cancelled (some "sick")).2 = none ∧
    getCount (patchBooking sFull 10 Status.cancelled (some "sick")).1.counters (1, date0) = 0 := by
  have hmain := C4_cancellation_contract sFull 10 book1 (by decide) (Or.inl (by decide)) (by decide)
  refine ⟨hmain.1, (hmain.2 "sick").1, ?_⟩
  have h3 := (hmain.2 "sick").2.2.1
  have h4 : getCount sFull.counters (book1.timeSlotId, book1.date) = 1 := by decide
  rw [h4] at h3
  exact h3

/-- C5: Cancelled is terminal for the status field: when every booking with
the given id is cancelled, any attempted status transition on it fails with
InvalidStatusTransitionError and leaves the state unchanged, and no single
operation — admission, status update or hard delete — ever yields a state
holding a booking with that id whose status is not cancelled (hard deletion
may remove the row, which is not a status transition). -/
theorem C5_cancelled_terminal (wk : Date → Nat) (s : State) (i : Nat)
    (hc : ∀ b ∈ s.bookings, b.id = i → b.status = Status.cancelled)
    (hex : ∃ b ∈ s.bookings, b.id = i)
    (hfresh : ∀ b ∈ s.bookings, b.id < s.nextBookingId) :
    (∀ st reason, patchBooking s i st reason = (s, some BErr.invalidStatusTransition)) ∧
    (∀ serviceId tsId dateStr ck msg b2,
       b2 ∈ (postBooking wk s serviceId tsId dateStr ck msg).1.bookings → b2.id = i →
       b2.status = Status.cancelled) ∧
    (∀ bid st reason b2,
       b2 ∈ (patchBooking s bid st reason).1.bookings → b2.id = i →
       b2.status = Status.cancelled) ∧
    (∀ bid b2, b2 ∈ (deleteBookingH s bid).1.bookings → b2.id = i →
       b2.status = Status.cancelled) := by
  obtain ⟨bw, hbw, hbwid⟩ := hex
  refine ⟨?_, ?_, ?_, ?_⟩
  · intro st reason
    have hsome : (s.bookings.find? (fun x => decide (x.id = i))).isSome := by
      rw [List.find?_isSome]
      exact ⟨bw, hbw, by simp [hbwid]⟩
    obtain ⟨b0, hf0⟩ := Option.isSome_iff_exists.mp hsome
    have hb0id : b0.id = i := by
      have := List.find?_some hf0
      exact of_decide_eq_true this
    have hb0c : b0.status = Status.cancelled :=
      hc b0 (List.mem_of_find?_eq_some hf0) hb0id
    simp only [patchBooking, updateBookingStatus_cancelled_terminal hf0 hb0c st reason]
  · intro serviceId tsId dateStr ck msg b2 hmem2 hid2
    cases hres : createBooking wk s serviceId tsId dateStr ck msg with
    | error e =>
      simp only [postBooking, hres] at hmem2
      exact hc b2 hmem2 hid2
    | ok p =>
      obtain ⟨s2, ev⟩ := p
      obtain ⟨date, t, hpd, hrs, hsi, hdw, hdp, hcap, hs2, hev⟩ := createBooking_ok_inv hres
      simp only [postBooking, hres] at hmem2
      rw [hs2] at hmem2
      rcases List.mem_cons.mp hmem2 with hbeq | hbmem
      · exfalso
        have : b2.id = s.nextBookingId := by
          rw [hbeq]
          rfl
        have hlt := hfresh bw hbw
        rw [hbwid] at hlt
        rw [hid2] at this
        omega
      · exact hc b2 hbmem hid2
  · intro bid st reason b2 hmem2 hid2
    cases hu : updateBookingStatus s bid st reason with
    | error e =>
      simp only [patchBooking, hu] at hmem2
      exact hc b2 hmem2 hid2
    | ok s2 =>
      obtain ⟨b0, hf, hnc, hcase⟩ := updateBookingStatus_ok_inv hu
      have hb0p := List.find?_some hf
      have hb0bid : b0.id = bid := of_decide_eq_true hb0p
      simp only [patchBooking, hu] at hmem2
      have hnotid : ¬ b0.id = i := by
        intro hcon
        exact hnc (hc b0 (List.mem_of_find?_eq_some hf) hcon)
      rcases hcase with ⟨r, hstc, hrc, hs2⟩ | ⟨hstc, hs2⟩
      · rw [hs2] at hmem2
        rcases mem_updateList hmem2 with hbeq | hbmem
        · exfalso
          apply hnotid
          rw [show b0.id = ({ b0 with status := Status.cancelled, cancelReason := some r } : Booking).id from rfl, ← hbeq]
          exact hid2
        · exact hc b2 hbmem hid2
      · rw [hs2] at hmem2
        rcases mem_updateList hmem2 with hbeq | hbmem
        · exfalso
          apply hnotid
          rw [show b0.id = ({ b0 with status := st } : Booking).id from rfl, ← hbeq]
          exact hid2
        · exact hc b2 hbmem hid2
  · intro bid b2 hmem2 hid2
    cases hd : deleteBooking s bid with
    | error e =>
      simp only [deleteBookingH, hd] at hmem2
      exact hc b2 hmem2 hid2
    | ok p =>
      obtain ⟨s2, resp⟩ := p
      obtain ⟨b0, hf, hresp, hs2⟩ := deleteBooking_ok_inv hd
      simp only [deleteBookingH, hd] at hmem2
      rw [hs2] at hmem2
      exact hc b2 (mem_removeList hmem2) hid2

/-- Closed instance of C5: a PATCH of the concrete cancelled booking to
confirmed fails with InvalidStatusTransitionError and the state is exactly
the one before. -/
theorem C5_cancelled_terminal_witness :
    patchBooking sCan 11 Status.confirmed none = (sCan, some BErr.invalidStatusTransition) :=
  (C5_cancelled_terminal weekdaySun0 sCan 11 (by decide) (by decide) (by decide)).1
    Status.confirmed none

/-- Counterexample to C8 as stated: the concrete successful admission emits
exactly one event, and its documented event type string is bookings.create —
no event named booking.created is emitted. -/
theorem C8_counterexample :
    createBooking weekdaySun0 sOpen 1 1 "2023-07-10" "a" "" = .ok (sAfter, evAfter) ∧
    evAfter.map Event.eventType = ["bookings.create"] ∧
    ("bookings.create" : String) ≠ "booking.created" :=
  ⟨by decide, by decide, by decide⟩

/-- C8 (amended): every successful createBooking, after committing the
Booking row in pending state, emits exactly one domain event for webhook
delivery, and its event type is the documented bookings.create (the webhooks
documentation names the creation event bookings.create, not
booking.created). -/
theorem C8_creation_event (wk : Date → Nat) (s : State) (serviceId tsId : Nat)
    (dateStr ck msg : String) (s2 : State) (ev : List Event)
    (h : createBooking wk s serviceId tsId dateStr ck msg = .ok (s2, ev)) :
    ev = [{ eventType := "bookings.create", bookingId := s.nextBookingId }] ∧
    ∃ b, s2.bookings = b :: s.bookings ∧ b.status = Status.pending ∧ b.id = s.nextBookingId := by
  obtain ⟨date, t, hp, hr, hsid, hdow, hd, hcap, hs2, hev⟩ := createBooking_ok_inv h
  refine ⟨hev, mkBooking s serviceId tsId date ck msg, ?_, rfl, rfl⟩
  rw [hs2]

/-- Closed instance of the amended C8: the concrete admission emits exactly
the single bookings.create event and commits the row in pending state. -/
theorem C8_creation_event_witness :
    createBooking weekdaySun0 sOpen 1 1 "2023-07-10" "a" "" = .ok (sAfter, evAfter) ∧
    (evAfter = [{ eventType := "bookings.create", bookingId := sOpen.nextBookingId }] ∧
     ∃ b, sAfter.bookings = b :: sOpen.bookings ∧ b.status = Status.pending ∧ b.id = sOpen.nextBookingId) :=
  ⟨by decide, C8_creation_event weekdaySun0 sOpen 1 1 "2023-07-10" "a" "" sAfter evAfter (by decide)⟩

/-- C9: Delete envelope shape: every successful DELETE — of a booking, of a
single time slot, or of time slots by day of week — answers with the
envelope whose data field is the literal string ok (a string constructor,
not an object, not the deleted resource). -/
theorem C9_delete_envelope (s : State) :
    (∀ bid s2 resp, deleteBooking s bid = .ok (s2, resp) → resp = okEnvelope (JVal.str "ok")) ∧
    (∀ tsId s2 resp, deleteTimeSlot s tsId = .ok (s2, resp) → resp = okEnvelope (JVal.str "ok")) ∧
    (∀ serviceId dow, (deleteTimeSlotsByDay s serviceId dow).2 = okEnvelope (JVal.str "ok")) ∧
    (∀ fields, JVal.str "ok" ≠ JVal.obj fields) := by
  refine ⟨?_, ?_, ?_, ?_⟩
  · intro bid s2 resp h
    obtain ⟨b0, hf, hresp, hs2⟩ := deleteBooking_ok_inv h
    exact hresp
  · intro tsId s2 resp h
    unfold deleteTimeSlot at h
    split at h
    · exact absurd h (by simp)
    · cases h
      rfl
  · intro serviceId dow
    rfl
  · intro fields h
    exact JVal.noConfusion h

/-- Closed instance of C9: deleting the concrete booking and the concrete
day-of-week bulk delete both answer with the data "ok" envelope. -/
theorem C9_delete_envelope_witness :
    (deleteTimeSlotsByDay sOpen 1 1).2 = okEnvelope (JVal.str "ok") ∧
    deleteBooking sFull 10 = .ok (sDel, okEnvelope (JVal.str "ok")) ∧
    okEnvelope (JVal.str "ok") = okEnvelope (JVal.str "ok") := by
  have hdel : deleteBooking sFull 10 = .ok (sDel, okEnvelope (JVal.str "ok")) := rfl
  exact ⟨(C9_delete_envelope sOpen).2.2.1 1 1, hdel,
    (C9_delete_envelope sFull).1 10 sDel (okEnvelope (JVal.str "ok")) hdel⟩

/-- C10: Rate-limit error body carries retry information: the documented 429
response has status 429 and a Retry-After header, its JSON error object
carries the rate_limit_exceeded code together with a numeric retry_after
field, and the documented code for exceeding the monthly usage cap —
api_limit_exceeded — is distinct from rate_limit_exceeded. -/
theorem C10_rate_limit_retry_info (ra : Nat) (m : String) :
    (rateLimitResponse ra m).status = 429 ∧
    (rateLimitResponse ra m).headers.lookup "Retry-After" = some (toString ra) ∧
    (∃ j, getField (rateLimitResponse ra m).body "error" = some j ∧
       getField j "code" = some (.str rateLimitCode) ∧
       getField j "retry_after" = some (.num (ra : Int))) ∧
    apiLimitCode ≠ rateLimitCode := by
  refine ⟨rfl, ?_, ?_, by decide⟩
  · simp [rateLimitResponse, List.lookup]
  · refine ⟨JVal.obj [("code", .str "rate_limit_exceeded"), ("message", .str m), ("retry_after", .num (ra : Int))], ?_, ?_, ?_⟩
    · simp [rateLimitResponse, rateLimitBody, getField, List.lookup]
    · simp [getField, List.lookup, rateLimitCode]
    · simp [getField, List.lookup]
